import Mathlib

/-!
Verification development for the coder repository.

Part 1 embeds the agent startup-logs writer from
src/codersdk/agentsdk/logs.go (startupLogsWriter.Write / Close) and proves
its line-splitting behaviour.

Part 2 models the Terraform-state-to-workspace converter (ConvertState and
its pipeline). The converter's implementation file is not part of the
source snapshot (only its test suite is), so the pipeline is modelled from
the specification; every definition in that part carries a doc comment
saying what it models.
-/

deriving instance DecidableEq for Except

namespace Coder

/-! ## String ordering helpers

String comparison is modelled on the underlying character lists, ordered
lexicographically (the standard byte/char order used by Go's sort of
strings). -/

/-- Lexicographic non-strict order on strings via their character lists. -/
def strLe (a b : String) : Prop := a.data ≤ b.data

/-- Lexicographic strict order on strings via their character lists. -/
def strLt (a b : String) : Prop := a.data < b.data

instance : DecidableRel strLe := fun a b => inferInstanceAs (Decidable (a.data ≤ b.data))

instance : DecidableRel strLt := fun a b => inferInstanceAs (Decidable (a.data < b.data))

instance : IsTotal String strLe := ⟨fun a b => le_total a.data b.data⟩

instance : IsTrans String strLe := ⟨fun _ _ _ h1 h2 => le_trans h1 h2⟩

/-! ## Part 1: startup logs writer (src/codersdk/agentsdk/logs.go)

The writer keeps a buffer of the bytes of the current partial line.
Each emitted Log is represented by its Output bytes (modelled as a
character list); the CreatedAt timestamp and the constant level/source
fields of the Go struct carry no line-splitting content and are omitted.
The sender is modelled as always succeeding. -/

/-- State of the startupLogsWriter: the buffer tracking the partial line
(the bytes.Buffer field buf of the Go struct). -/
structure StartupLogsWriter where
  buf : List Char
  deriving DecidableEq

/-- Index of the first newline in p, mirroring bytes.IndexByte(p, 0x0A). -/
def findNl : List Char → Option Nat
  | [] => none
  | c :: rest => if c = '\n' then some 0 else (findNl rest).map (fun i => i + 1)

/-- Embeds startupLogsWriter.Write: repeatedly find the first newline; emit
the buffered partial (taken at most once) plus the bytes before the newline,
dropping a carriage return at index nl-1 of the current chunk when nl > 0;
then continue after the newline. Bytes after the last newline are appended
to the buffer. Returns the outputs of the sent Logs and the new writer
state. -/
def StartupLogsWriter.Write (w : StartupLogsWriter) (p : List Char) :
    List (List Char) × StartupLogsWriter :=
  match hfind : findNl p with
  | none => ([], ⟨w.buf ++ p⟩)
  | some nl =>
    ((w.buf ++ p.take (nl - (if 0 < nl ∧ p[nl - 1]? = some '\r' then 1 else 0))) ::
        (StartupLogsWriter.Write ⟨[]⟩ (p.drop (nl + 1))).1,
      (StartupLogsWriter.Write ⟨[]⟩ (p.drop (nl + 1))).2)
termination_by p.length
decreasing_by
  all_goals
    cases p with
    | nil => simp [findNl] at hfind
    | cons c tail => simp only [List.length_drop, List.length_cons]; omega

/-- Embeds startupLogsWriter.Close: when the buffer is nonempty, send its
contents as one final Log and reset the buffer; otherwise do nothing. -/
def StartupLogsWriter.Close (w : StartupLogsWriter) :
    List (List Char) × StartupLogsWriter :=
  if w.buf.isEmpty then ([], ⟨[]⟩) else ([w.buf], ⟨[]⟩)

/-- Embeds LogsWriter: the writer starts with an empty buffer. -/
def LogsWriter : StartupLogsWriter := ⟨[]⟩

/-- Runs a sequence of Write calls from a given writer state, collecting all
emitted Log outputs in order. -/
def runWritesFrom (w : StartupLogsWriter) : List (List Char) → List (List Char) × StartupLogsWriter
  | [] => ([], w)
  | c :: rest =>
    ((w.Write c).1 ++ (runWritesFrom (w.Write c).2 rest).1,
      (runWritesFrom (w.Write c).2 rest).2)

/-- Runs a sequence of Write calls on a fresh writer. -/
def runWrites (chunks : List (List Char)) : List (List Char) × StartupLogsWriter :=
  runWritesFrom LogsWriter chunks

/-- Drops a single carriage return at the very end of a line, if present. -/
def stripCr (s : List Char) : List Char :=
  match s.getLast? with
  | some c => if c = '\r' then s.dropLast else s
  | none => s

/-- Splits a character stream at newline bytes: returns the list of
completed lines (without their newline terminators, not CR-stripped)
and the trailing bytes after the last newline. -/
def splitLines : List Char → List (List Char) × List Char
  | [] => ([], [])
  | c :: rest =>
    let r := splitLines rest
    if c = '\n' then ([] :: r.1, r.2)
    else
      match r.1 with
      | l :: ls => ((c :: l) :: ls, r.2)
      | [] => ([], c :: r.2)

/-- Stated from the claim's words, for comparison with the code: one Log per
newline byte of the concatenated stream of all writes, whose output is that
line with a carriage return immediately preceding the newline stripped. -/
def claimWriterLogs (chunks : List (List Char)) : List (List Char) :=
  ((splitLines (chunks.foldr (· ++ ·) [])).1).map stripCr

/-! ## Part 2: Terraform state conversion

Modelled from the spec: the converter source file is absent from the
snapshot (only provisioner/terraform/resources_test.go is present), so the
entry point ConvertState and its pipeline (flattener, attribute decoder,
ownership resolver, validator, instance association, assembler) are built
from the specification text. The DOT graph input is abstracted to a list
of directed edges between already-stripped resource addresses, and module
nesting is pre-collapsed: each module value carries the pre-order list of
its resources. Scripts, env vars and metadata key/value contents are
orthogonal to the claims and elided. -/

/-- Modelled from the spec: a JSON attribute value from the loose attribute
bag of a resource. Presence of a key is distinguished from a zero value. -/
inductive AttrValue where
  | str (s : String)
  | num (n : Int)
  | bool (b : Bool)
  | arr (xs : List AttrValue)
  | obj (fields : List (String × AttrValue))
  | null

/-- Modelled from the spec: whether a Terraform resource is managed or a
data source. -/
inductive ResourceMode where
  | managed
  | data
  deriving DecidableEq

/-- Modelled from the spec: a raw Terraform resource with its address,
type, name, mode and attribute bag. -/
structure RawResource where
  address : String
  type : String
  name : String
  mode : ResourceMode
  attributes : List (String × AttrValue)

/-- Modelled from the spec: a module root; nesting is pre-collapsed so the
resource list is already the pre-order traversal of the module tree. -/
structure TfModule where
  resources : List RawResource

/-- Modelled from the spec: concatenate the resources of the module roots
in order (component C1, pre-order flattening). -/
def flattenModules : List TfModule → List RawResource
  | [] => []
  | m :: rest => m.resources ++ flattenModules rest

/-- Last resource in rs with the given address, if any. -/
def lastWithAddress (rs : List RawResource) (addr : String) : Option RawResource :=
  (rs.filter fun r => decide (r.address = addr)).getLast?

/-- Modelled from the spec: deduplicate by address keeping the first
position and the last written attributes (plan and prior state views may
repeat an address). -/
def dedupByAddressAux (all : List RawResource) :
    List RawResource → List String → List RawResource
  | [], _ => []
  | r :: rest, seen =>
    if r.address ∈ seen then dedupByAddressAux all rest seen
    else ((lastWithAddress all r.address).getD r) :: dedupByAddressAux all rest (r.address :: seen)

/-- Modelled from the spec: the flattened, address-deduplicated resource
catalog of all module roots. -/
def flattenCatalog (modules : List TfModule) : List RawResource :=
  dedupByAddressAux (flattenModules modules) (flattenModules modules) []

/-- Looks up a key in an attribute bag; none when the key is absent. -/
def lookupAttr (attrs : List (String × AttrValue)) (k : String) : Option AttrValue :=
  match attrs with
  | [] => none
  | (k2, v) :: rest => if k2 = k then some v else lookupAttr rest k

/-- String value of an attribute, numbers normalized to their decimal form. -/
def attrStrOpt (attrs : List (String × AttrValue)) (k : String) : Option String :=
  match lookupAttr attrs k with
  | some (AttrValue.str s) => some s
  | some (AttrValue.num n) => some (toString n)
  | _ => none

/-- Integer value of an attribute, when present as a number. -/
def attrNumOpt (attrs : List (String × AttrValue)) (k : String) : Option Int :=
  match lookupAttr attrs k with
  | some (AttrValue.num n) => some n
  | _ => none

/-- Boolean value of an attribute, defaulting to false. -/
def attrBoolD (attrs : List (String × AttrValue)) (k : String) : Bool :=
  match lookupAttr attrs k with
  | some (AttrValue.bool b) => b
  | _ => false

/-- Modelled from the spec: the boolean capability set of built-in UI
launchers an agent advertises. -/
structure DisplayApps where
  vscode : Bool
  vscodeInsiders : Bool
  webTerminal : Bool
  sshHelper : Bool
  portForwardingHelper : Bool
  deriving DecidableEq

/-- Modelled from the spec: default when the display_apps block is absent:
all true except vscode_insiders. -/
def defaultDisplayApps : DisplayApps :=
  { vscode := true, vscodeInsiders := false, webTerminal := true,
    sshHelper := true, portForwardingHelper := true }

/-- Modelled from the spec: decode a display_apps block (a singleton list
holding an object); fields of a present block default to false, an absent
or malformed block yields the default capability set. -/
def decodeDisplayApps (v : Option AttrValue) : DisplayApps :=
  match v with
  | some (AttrValue.arr (AttrValue.obj fields :: _)) =>
    { vscode := attrBoolD fields "vscode",
      vscodeInsiders := attrBoolD fields "vscode_insiders",
      webTerminal := attrBoolD fields "web_terminal",
      sshHelper := attrBoolD fields "ssh_helper",
      portForwardingHelper := attrBoolD fields "port_forwarding_helper" }
  | _ => defaultDisplayApps

/-- Modelled from the spec: agent authentication, a token or a
provider-supplied instance identity. -/
inductive AgentAuth where
  | token (t : String)
  | instanceId (id : String)
  deriving DecidableEq

/-- Modelled from the spec: a decoded coder_agent entity before ownership
resolution, keyed by its address. -/
structure AgentEnt where
  address : String
  name : String
  os : String
  arch : String
  authMode : String
  connectionTimeoutSeconds : Int
  displayApps : DisplayApps
  deriving DecidableEq

/-- Modelled from the spec: decode a coder_agent resource from its
attribute bag (connection timeout defaults to 120 seconds, auth mode to
token). -/
def decodeAgent (r : RawResource) : AgentEnt :=
  { address := r.address
    name := r.name
    os := (attrStrOpt r.attributes "os").getD ""
    arch := (attrStrOpt r.attributes "arch").getD ""
    authMode := (attrStrOpt r.attributes "auth").getD "token"
    connectionTimeoutSeconds := (attrNumOpt r.attributes "connection_timeout").getD 120
    displayApps := decodeDisplayApps (lookupAttr r.attributes "display_apps") }

/-- Modelled from the spec: a decoded coder_app entity before ownership
resolution. -/
structure AppEnt where
  address : String
  slug : String
  displayName : String
  deriving DecidableEq

/-- Modelled from the spec: decode a coder_app resource (slug and display
name default to the resource name). -/
def decodeApp (r : RawResource) : AppEnt :=
  { address := r.address
    slug := (attrStrOpt r.attributes "slug").getD r.name
    displayName := (attrStrOpt r.attributes "display_name").getD r.name }

/-- Modelled from the spec: a decoded workspace parameter. The validation
bounds are options: a bound present with value 0 is some 0, an omitted
bound is none. -/
structure ParamOut where
  name : String
  ptype : String
  description : String
  defaultValue : String
  mutable : Bool
  ephemeral : Bool
  required : Bool
  order : Int
  validationMin : Option Int
  validationMax : Option Int
  deriving DecidableEq

/-- Fields of the validation block of a coder_parameter, when present. -/
def paramValidationFields (attrs : List (String × AttrValue)) :
    List (String × AttrValue) :=
  match lookupAttr attrs "validation" with
  | some (AttrValue.arr (AttrValue.obj fields :: _)) => fields
  | _ => []

/-- Modelled from the spec: decode a coder_parameter resource; a parameter
is required when it has no default, and min/max presence is preserved
exactly. -/
def decodeParam (r : RawResource) : ParamOut :=
  { name := (attrStrOpt r.attributes "name").getD r.name
    ptype := (attrStrOpt r.attributes "type").getD "string"
    description := (attrStrOpt r.attributes "description").getD ""
    defaultValue := (attrStrOpt r.attributes "default").getD ""
    mutable := attrBoolD r.attributes "mutable"
    ephemeral := attrBoolD r.attributes "ephemeral"
    required := (lookupAttr r.attributes "default").isNone
    order := (attrNumOpt r.attributes "order").getD 0
    validationMin := attrNumOpt (paramValidationFields r.attributes) "min"
    validationMax := attrNumOpt (paramValidationFields r.attributes) "max" }

/-- A directed dependency edge between two resource addresses. -/
abbrev Edge := String × String

/-- Modelled from the spec: the undirected neighborhood of an address in
the dependency graph. -/
def neighbors (edges : List Edge) (a : String) : List String :=
  (edges.filterMap fun e => if e.1 = a then some e.2 else none) ++
    (edges.filterMap fun e => if e.2 = a then some e.1 else none)

/-- Among candidate addresses, the one with the smallest rank (earlier in
the flattened catalog); earlier list position wins exact rank ties. -/
def minByRank (rank : String → Nat) : List String → Option String
  | [] => none
  | x :: xs =>
    match minByRank rank xs with
    | none => some x
    | some y => some (if rank x ≤ rank y then x else y)

/-- Modelled from the spec: fuel-bounded breadth-first search over the
undirected dependency graph. Each round inspects the current frontier for
target nodes (choosing the one earliest in the flattened catalog on
depth ties) and otherwise expands to unvisited neighbors. -/
def bfsAux (edges : List Edge) (target : String → Bool) (rank : String → Nat) :
    Nat → List String → List String → Option String
  | 0, _, _ => none
  | fuel + 1, visited, frontier =>
    match minByRank rank (frontier.filter target) with
    | some best => some best
    | none =>
      let visited2 := visited ++ frontier
      let next := (frontier.foldr (fun n acc => neighbors edges n ++ acc) []).filter
        fun n => decide (¬ n ∈ visited2)
      if next.isEmpty then none
      else bfsAux edges target rank fuel visited2 next

/-- Modelled from the spec: the owning node for an attachable entity: the
first target node found by undirected BFS from its address. -/
def bfsOwner (edges : List Edge) (target : String → Bool) (rank : String → Nat)
    (start : String) : Option String :=
  bfsAux edges target rank (2 * edges.length + 2) [] [start]

/-- Whether a type name starts with the coder_ prefix. -/
def coderPrefixed (t : String) : Bool :=
  match t.data with
  | 'c' :: 'o' :: 'd' :: 'e' :: 'r' :: '_' :: _ => true
  | _ => false

/-- Modelled from the spec: an infrastructure resource is managed and not a
coder_* resource. -/
def isInfraRes (r : RawResource) : Bool :=
  decide (r.mode = ResourceMode.managed) && ! coderPrefixed r.type

/-- Whether an address belongs to an infrastructure resource of the catalog. -/
def isInfraAddr (cat : List RawResource) (addr : String) : Bool :=
  cat.any fun r => decide (r.address = addr) && isInfraRes r

/-- Whether an address belongs to a coder_agent resource of the catalog. -/
def isAgentAddr (cat : List RawResource) (addr : String) : Bool :=
  cat.any fun r => decide (r.address = addr ∧ r.type = "coder_agent")

/-- Position of an address in the flattened catalog order. -/
def rankOf (cat : List RawResource) (addr : String) : Nat :=
  cat.findIdx fun r => decide (r.address = addr)

/-- All decoded coder_agent entities of the catalog, in catalog order. -/
def decodedAgents (cat : List RawResource) : List AgentEnt :=
  cat.filterMap fun r => if r.type = "coder_agent" then some (decodeAgent r) else none

/-- All decoded coder_app entities of the catalog, in catalog order. -/
def decodedApps (cat : List RawResource) : List AppEnt :=
  cat.filterMap fun r => if r.type = "coder_app" then some (decodeApp r) else none

/-- All decoded coder_parameter entities of the catalog, in catalog order. -/
def decodedParams (cat : List RawResource) : List ParamOut :=
  cat.filterMap fun r => if r.type = "coder_parameter" then some (decodeParam r) else none

/-- Addresses of all coder_metadata resources of the catalog. -/
def decodedMetaAddrs (cat : List RawResource) : List String :=
  cat.filterMap fun r => if r.type = "coder_metadata" then some r.address else none

/-- Ids of all external auth providers declared in the catalog. -/
def decodedExtAuths (cat : List RawResource) : List String :=
  cat.filterMap fun r =>
    if r.type = "coder_external_auth" ∨ r.type = "coder_git_auth" then
      some ((attrStrOpt r.attributes "id").getD r.name)
    else none

/-- Modelled from the spec: owner resource of an agent: the nearest
infrastructure resource by undirected BFS, catalog order breaking ties. -/
def agentOwner (cat : List RawResource) (edges : List Edge) (e : AgentEnt) : Option String :=
  bfsOwner edges (isInfraAddr cat) (rankOf cat) e.address

/-- Modelled from the spec: owning agent of an app: the nearest coder_agent
by undirected BFS. -/
def appOwner (cat : List RawResource) (edges : List Edge) (a : AppEnt) : Option String :=
  bfsOwner edges (isAgentAddr cat) (rankOf cat) a.address

/-- Modelled from the spec: target resource of a coder_metadata block: the
nearest infrastructure resource by undirected BFS. -/
def metaTarget (cat : List RawResource) (edges : List Edge) (addr : String) : Option String :=
  bfsOwner edges (isInfraAddr cat) (rankOf cat) addr

/-- Checks one character of the slug body; a hyphen must be followed by an
alphanumeric character. -/
def isLowerAlnum (c : Char) : Bool :=
  (decide ('a' ≤ c) && decide (c ≤ 'z')) || (decide ('0' ≤ c) && decide (c ≤ '9'))

/-- Body of the slug regexp: (-?[a-z0-9])* after the first character. -/
def validSlugBody : List Char → Bool
  | [] => true
  | '-' :: c :: rest => isLowerAlnum c && validSlugBody rest
  | '-' :: [] => false
  | c :: rest => isLowerAlnum c && validSlugBody rest

/-- Modelled from the spec: whether a slug matches the app slug pattern
of one lowercase alphanumeric followed by optionally hyphen-separated
lowercase alphanumerics. -/
def validSlug (s : String) : Bool :=
  match s.data with
  | [] => false
  | c :: rest => isLowerAlnum c && validSlugBody rest

/-- First element that repeats later in the list, if any. -/
def firstDup : List String → Option String
  | [] => none
  | s :: rest => if s ∈ rest then some s else firstDup rest

/-- Keeps the first occurrence of every string, preserving order. -/
def uniqueFirstAux : List String → List String → List String
  | [], _ => []
  | s :: rest, seen =>
    if s ∈ seen then uniqueFirstAux rest seen
    else s :: uniqueFirstAux rest (s :: seen)

/-- Names occurring more than once, each listed once, in first-occurrence
order. -/
def repeatedNames (l : List String) : List String :=
  uniqueFirstAux (l.filter fun s => decide (1 < l.count s)) []

/-- Wraps a name in double quotes. -/
def quoted (s : String) : String := "\"" ++ s ++ "\""

/-- Oxford-comma style join: commas between items with a final and. -/
def oxfordJoin : List String → String
  | [] => ""
  | [x] => x
  | [x, y] => x ++ " and " ++ y
  | x :: rest => x ++ ", " ++ oxfordJoin rest

/-- Modelled from the spec: the duplicate parameter names error message,
enumerating the repeated names with Oxford-comma formatting and matching
the singular or plural verb to the count. -/
def paramsUniqueMsg (names : List String) : String :=
  "coder_parameter names must be unique but " ++ oxfordJoin (names.map quoted) ++
    (if names.length = 1 then " appears multiple times" else " appear multiple times")

/-- Modelled from the spec: slug syntax validation, first failing app wins. -/
def checkSlugsValid (apps : List AppEnt) : Option String :=
  (apps.find? fun a => ! validSlug a.slug).map
    fun a => "invalid app slug " ++ quoted a.slug

/-- Modelled from the spec: global app slug uniqueness. -/
def checkDupSlugs (apps : List AppEnt) : Option String :=
  (firstDup (apps.map fun a => a.slug)).map
    fun s => "duplicate app slug " ++ quoted s

/-- Modelled from the spec: global parameter name uniqueness with the
Oxford-comma message. -/
def checkDupParams (params : List ParamOut) : Option String :=
  match repeatedNames (params.map fun p => p.name) with
  | [] => none
  | names => some (paramsUniqueMsg names)

/-- Modelled from the spec: at most one coder_metadata declaration may
target a resource. -/
def checkDupMeta (cat : List RawResource) (edges : List Edge) : Option String :=
  (firstDup ((decodedMetaAddrs cat).filterMap fun a => metaTarget cat edges a)).map
    fun addr => "duplicate metadata resource: " ++ addr

/-- Modelled from the spec: an agent with no reachable infrastructure
resource is a validation error. -/
def checkAgentsAttached (cat : List RawResource) (edges : List Edge) : Option String :=
  ((decodedAgents cat).find? fun e => (agentOwner cat edges e).isNone).map
    fun e => "agent " ++ quoted e.name ++ " is not associated with a resource"

/-- Modelled from the spec: the first validation error of the conversion,
if any. -/
def convertErr (cat : List RawResource) (edges : List Edge) : Option String :=
  match checkSlugsValid (decodedApps cat) with
  | some e => some e
  | none =>
    match checkDupSlugs (decodedApps cat) with
    | some e => some e
    | none =>
      match checkDupParams (decodedParams cat) with
      | some e => some e
      | none =>
        match checkDupMeta cat edges with
        | some e => some e
        | none => checkAgentsAttached cat edges

/-- Modelled from the spec: static table from provider resource type to its
instance-type attribute and instance-id attribute. -/
def providerTable : List (String × String × String) :=
  [("google_compute_instance", "machine_type", "instance_id"),
   ("aws_instance", "instance_type", "id"),
   ("aws_spot_instance_request", "instance_type", "spot_instance_id"),
   ("azurerm_linux_virtual_machine", "size", "virtual_machine_id"),
   ("azurerm_windows_virtual_machine", "size", "virtual_machine_id")]

/-- Instance-type attribute name for a provider resource type. -/
def typeKeyOf (t : String) : Option String :=
  (providerTable.find? fun e => decide (e.1 = t)).map fun e => e.2.1

/-- Instance-id attribute name for a provider resource type. -/
def idKeyOf (t : String) : Option String :=
  (providerTable.find? fun e => decide (e.1 = t)).map fun e => e.2.2

/-- Modelled from the spec: whether an agent auth mode matches a provider
resource type family. -/
def authMatches (mode ptype : String) : Bool :=
  (decide (mode = "google-instance-identity") && decide (ptype = "google_compute_instance")) ||
    (decide (mode = "aws-instance-identity") &&
      (decide (ptype = "aws_instance") || decide (ptype = "aws_spot_instance_request"))) ||
    (decide (mode = "azure-instance-identity") &&
      (decide (ptype = "azurerm_linux_virtual_machine") ||
        decide (ptype = "azurerm_windows_virtual_machine")))

/-- Output app: slug and display name. -/
structure AppOut where
  slug : String
  displayName : String
  deriving DecidableEq

/-- Output agent with resolved auth and its sorted apps. -/
structure AgentOut where
  name : String
  os : String
  arch : String
  authMode : String
  auth : AgentAuth
  connectionTimeoutSeconds : Int
  displayApps : DisplayApps
  apps : List AppOut
  deriving DecidableEq

/-- Output resource with its instance type and sorted agents. -/
structure ResourceOut where
  name : String
  type : String
  instanceType : Option String
  agents : List AgentOut
  deriving DecidableEq

/-- The assembled output state. -/
structure State where
  resources : List ResourceOut
  parameters : List ParamOut
  externalAuthProviders : List String
  deriving DecidableEq

/-- Ordering of output resources: ascending by name, then by type. -/
def resLe (a b : ResourceOut) : Prop :=
  strLt a.name b.name ∨ (a.name = b.name ∧ strLe a.type b.type)

/-- Ordering of agents within a resource: ascending by name. -/
def agentLe (a b : AgentOut) : Prop := strLe a.name b.name

/-- Ordering of apps within an agent: ascending by slug. -/
def appLe (a b : AppOut) : Prop := strLe a.slug b.slug

instance : DecidableRel resLe := fun a b =>
  inferInstanceAs (Decidable (_ ∨ _))

instance : DecidableRel agentLe := fun a b =>
  inferInstanceAs (Decidable (strLe a.name b.name))

instance : DecidableRel appLe := fun a b =>
  inferInstanceAs (Decidable (strLe a.slug b.slug))

instance : IsTotal ResourceOut resLe :=
  ⟨by
    intro a b
    rcases lt_trichotomy a.name.data b.name.data with h | h | h
    · exact Or.inl (Or.inl h)
    · rcases le_total a.type.data b.type.data with h2 | h2
      · exact Or.inl (Or.inr ⟨String.ext h, h2⟩)
      · exact Or.inr (Or.inr ⟨(String.ext h).symm, h2⟩)
    · exact Or.inr (Or.inl h)⟩

instance : IsTrans ResourceOut resLe :=
  ⟨by
    intro a b c hab hbc
    rcases hab with h1 | ⟨e1, l1⟩
    · rcases hbc with h2 | ⟨e2, l2⟩
      · exact Or.inl (lt_trans h1 h2)
      · exact Or.inl (e2 ▸ h1)
    · rcases hbc with h2 | ⟨e2, l2⟩
      · exact Or.inl (e1 ▸ h2)
      · exact Or.inr ⟨e1.trans e2, le_trans l1 l2⟩⟩

instance : IsTotal AgentOut agentLe := ⟨fun a b => le_total a.name.data b.name.data⟩

instance : IsTrans AgentOut agentLe := ⟨fun _ _ _ h1 h2 => le_trans h1 h2⟩

instance : IsTotal AppOut appLe := ⟨fun a b => le_total a.slug.data b.slug.data⟩

instance : IsTrans AppOut appLe := ⟨fun _ _ _ h1 h2 => le_trans h1 h2⟩

/-- Modelled from the spec: build an output agent hosted by a given owner
resource: resolve auth (copying the provider's instance-id attribute when
the auth mode matches the owner's provider type), and attach its apps
sorted by slug. -/
def buildAgentOut (cat : List RawResource) (edges : List Edge) (apps : List AppEnt)
    (owner : RawResource) (e : AgentEnt) : AgentOut :=
  { name := e.name
    os := e.os
    arch := e.arch
    authMode := e.authMode
    auth :=
      if authMatches e.authMode owner.type then
        AgentAuth.instanceId ((attrStrOpt owner.attributes ((idKeyOf owner.type).getD "")).getD "")
      else if e.authMode = "token" then AgentAuth.token ""
      else AgentAuth.instanceId ""
    connectionTimeoutSeconds := e.connectionTimeoutSeconds
    displayApps := e.displayApps
    apps :=
      List.insertionSort appLe
        ((apps.filter fun a => decide (appOwner cat edges a = some e.address)).map
          fun a => { slug := a.slug, displayName := a.displayName }) }

/-- Modelled from the spec: build an output resource: copy the provider
instance-type attribute when the type is in the provider table, and attach
the agents it owns sorted by name. -/
def buildResource (cat : List RawResource) (edges : List Edge) (r : RawResource) : ResourceOut :=
  { name := r.name
    type := r.type
    instanceType :=
      match typeKeyOf r.type with
      | some k => attrStrOpt r.attributes k
      | none => none
    agents :=
      List.insertionSort agentLe
        (((decodedAgents cat).filter fun e =>
            decide (agentOwner cat edges e = some r.address)).map
          (buildAgentOut cat edges (decodedApps cat) r)) }

/-- Modelled from the spec: assemble the output state: infrastructure
resources sorted by name then type, parameters in decode order, external
auth providers sorted and deduplicated. -/
def buildState (cat : List RawResource) (edges : List Edge) : State :=
  { resources :=
      List.insertionSort resLe ((cat.filter isInfraRes).map (buildResource cat edges))
    parameters := decodedParams cat
    externalAuthProviders := (List.insertionSort strLe (decodedExtAuths cat)).dedup }

/-- Modelled from the spec: ConvertState, the conversion entry point:
flatten the module roots, run all validations, and either return the first
error with no state or the fully assembled state. -/
def ConvertState (modules : List TfModule) (edges : List Edge) : Except String State :=
  match convertErr (flattenCatalog modules) edges with
  | some e => Except.error e
  | none => Except.ok (buildState (flattenCatalog modules) edges)

/-! ## Concrete scenarios

These mirror the testdata fixtures of the converter's test suite. -/

/-- Chaining scenario: the coder_agent of the chaining-resources fixture. -/
def chainAgent : RawResource :=
  ⟨"coder_agent.main", "coder_agent", "main", ResourceMode.managed,
    [("os", AttrValue.str "linux"), ("arch", AttrValue.str "amd64"),
     ("auth", AttrValue.str "token")]⟩

/-- Chaining scenario: resource a, the farther resource. -/
def chainResA : RawResource :=
  ⟨"null_resource.a", "null_resource", "a", ResourceMode.managed, []⟩

/-- Chaining scenario: resource b, the closer resource. -/
def chainResB : RawResource :=
  ⟨"null_resource.b", "null_resource", "b", ResourceMode.managed, []⟩

/-- Chaining scenario: module input. -/
def chainModules : List TfModule := [⟨[chainResA, chainResB, chainAgent]⟩]

/-- Chaining scenario: dependency edges agent to b and b to a. -/
def chainEdges : List Edge :=
  [("coder_agent.main", "null_resource.b"), ("null_resource.b", "null_resource.a")]

/-- Chaining scenario: the expected output agent. -/
def chainAgentOut : AgentOut :=
  ⟨"main", "linux", "amd64", "token", AgentAuth.token "", 120, defaultDisplayApps, []⟩

/-- Chaining scenario: the expected output state: a has no agents, b hosts
the agent. -/
def chainExpected : State :=
  ⟨[⟨"a", "null_resource", none, []⟩, ⟨"b", "null_resource", none, [chainAgentOut]⟩], [], []⟩

/-- Conflicting scenario: agent at equal distance of resources first and
second. -/
def confAgent : RawResource :=
  ⟨"coder_agent.main", "coder_agent", "main", ResourceMode.managed,
    [("os", AttrValue.str "linux"), ("arch", AttrValue.str "amd64"),
     ("auth", AttrValue.str "token")]⟩

/-- Conflicting scenario: resource first, earlier in the flattened order. -/
def confFirst : RawResource :=
  ⟨"null_resource.first", "null_resource", "first", ResourceMode.managed, []⟩

/-- Conflicting scenario: resource second, later in the flattened order. -/
def confSecond : RawResource :=
  ⟨"null_resource.second", "null_resource", "second", ResourceMode.managed, []⟩

/-- Conflicting scenario: module input with first listed before second. -/
def confModules : List TfModule := [⟨[confFirst, confSecond, confAgent]⟩]

/-- Conflicting scenario: both resources depend directly on the agent. -/
def confEdges : List Edge :=
  [("null_resource.first", "coder_agent.main"), ("null_resource.second", "coder_agent.main")]

/-- Conflicting scenario: expected output: the agent attaches to first. -/
def confExpected : State :=
  ⟨[⟨"first", "null_resource", none, [chainAgentOut]⟩,
    ⟨"second", "null_resource", none, []⟩], [], []⟩

/-- Flattened-order tie scenario: resource zz, listed first but
lexicographically later. -/
def tieResZz : RawResource :=
  ⟨"null_resource.zz", "null_resource", "zz", ResourceMode.managed, []⟩

/-- Flattened-order tie scenario: resource aa, listed second but
lexicographically earlier. -/
def tieResAa : RawResource :=
  ⟨"null_resource.aa", "null_resource", "aa", ResourceMode.managed, []⟩

/-- Flattened-order tie scenario: module input with zz listed before aa. -/
def tieModules : List TfModule := [⟨[tieResZz, tieResAa, confAgent]⟩]

/-- Flattened-order tie scenario: both resources at distance one from the
agent. -/
def tieEdges : List Edge :=
  [("null_resource.zz", "coder_agent.main"), ("null_resource.aa", "coder_agent.main")]

/-- Flattened-order tie scenario: expected output: zz (first in flattened
order) wins the tie although aa is lexicographically smaller. -/
def tieExpected : State :=
  ⟨[⟨"aa", "null_resource", none, []⟩,
    ⟨"zz", "null_resource", none, [chainAgentOut]⟩], [], []⟩

/-- Builds a coder_parameter raw resource (a data-mode resource). -/
def paramRes (addr pname : String) (attrs : List (String × AttrValue)) : RawResource :=
  ⟨addr, "coder_parameter", pname, ResourceMode.data,
    [("name", AttrValue.str pname), ("type", AttrValue.str "number"),
     ("default", AttrValue.str "4")] ++ attrs⟩

/-- Wraps min/max fields into a validation block attribute. -/
def validationAttr (fields : List (String × AttrValue)) : List (String × AttrValue) :=
  [("validation", AttrValue.arr [AttrValue.obj fields])]

/-- Validation-shape scenario: the seven parameter declarations covering
absence and zero-valued presence of min and max. -/
def paramsModules : List TfModule :=
  [⟨[paramRes "data.coder_parameter.p1" "number_example" [],
     paramRes "data.coder_parameter.p2" "number_example_min" (validationAttr [("min", AttrValue.num 3)]),
     paramRes "data.coder_parameter.p3" "number_example_max" (validationAttr [("max", AttrValue.num 6)]),
     paramRes "data.coder_parameter.p4" "number_example_min_zero" (validationAttr [("min", AttrValue.num 0)]),
     paramRes "data.coder_parameter.p5" "number_example_max_zero" (validationAttr [("max", AttrValue.num 0)]),
     paramRes "data.coder_parameter.p6" "number_example_min_max"
       (validationAttr [("min", AttrValue.num 3), ("max", AttrValue.num 6)]),
     paramRes "data.coder_parameter.p7" "number_example_min_zero_max"
       (validationAttr [("min", AttrValue.num 0), ("max", AttrValue.num 6)])]⟩]

/-- Expected decoded parameter of the validation-shape scenario. -/
def paramOutExp (pname : String) (vmin vmax : Option Int) : ParamOut :=
  ⟨pname, "number", "", "4", false, false, false, 0, vmin, vmax⟩

/-- Validation-shape scenario: expected output, presence of each bound
preserved exactly. -/
def paramsExpected : State :=
  ⟨[],
   [paramOutExp "number_example" none none,
    paramOutExp "number_example_min" (some 3) none,
    paramOutExp "number_example_max" none (some 6),
    paramOutExp "number_example_min_zero" (some 0) none,
    paramOutExp "number_example_max_zero" none (some 0),
    paramOutExp "number_example_min_max" (some 3) (some 6),
    paramOutExp "number_example_min_zero_max" (some 0) (some 6)],
   []⟩

/-- Slug scenarios: the workspace resource hosting the agent. -/
def slugDev : RawResource :=
  ⟨"null_resource.dev", "null_resource", "dev", ResourceMode.managed, []⟩

/-- Slug scenarios: the agent hosting the apps. -/
def slugAgent : RawResource :=
  ⟨"coder_agent.dev", "coder_agent", "dev", ResourceMode.managed,
    [("os", AttrValue.str "linux"), ("arch", AttrValue.str "amd64")]⟩

/-- Invalid-slug scenario: an app whose slug fails the slug pattern. -/
def invalidApp : RawResource :=
  ⟨"coder_app.code-server", "coder_app", "code-server", ResourceMode.managed,
    [("slug", AttrValue.str "$$$ invalid slug $$$")]⟩

/-- Invalid-slug scenario: module input. -/
def invalidSlugModules : List TfModule := [⟨[slugDev, slugAgent, invalidApp]⟩]

/-- Slug scenarios: edges app(s) to agent to resource. -/
def invalidSlugEdges : List Edge :=
  [("coder_app.code-server", "coder_agent.dev"), ("coder_agent.dev", "null_resource.dev")]

/-- Duplicate-slug scenario: first app carrying slug valid. -/
def dupApp1 : RawResource :=
  ⟨"coder_app.app1", "coder_app", "app1", ResourceMode.managed,
    [("slug", AttrValue.str "valid")]⟩

/-- Duplicate-slug scenario: second app carrying the same slug valid. -/
def dupApp2 : RawResource :=
  ⟨"coder_app.app2", "coder_app", "app2", ResourceMode.managed,
    [("slug", AttrValue.str "valid")]⟩

/-- Duplicate-slug scenario: module input. -/
def dupSlugModules : List TfModule := [⟨[slugDev, slugAgent, dupApp1, dupApp2]⟩]

/-- Duplicate-slug scenario: edges. -/
def dupSlugEdges : List Edge :=
  [("coder_app.app1", "coder_agent.dev"), ("coder_app.app2", "coder_agent.dev"),
   ("coder_agent.dev", "null_resource.dev")]

/-- Duplicate-parameter scenarios: one coder_parameter declaration per
name, at distinct addresses. -/
def dupParamResList : List String → Nat → List RawResource
  | [], _ => []
  | n :: rest, i =>
    paramRes ("data.coder_parameter.q" ++ toString i) n [] :: dupParamResList rest (i + 1)

/-- Duplicate-parameter scenarios: k names each repeated, mirroring the
parameter validation test. -/
def dupParamModules (names : List String) : List TfModule :=
  [⟨dupParamResList names 0⟩]

/-- Duplicate-metadata scenario: the doubly targeted resource. -/
def mdAbout : RawResource :=
  ⟨"null_resource.about", "null_resource", "about", ResourceMode.managed, []⟩

/-- Duplicate-metadata scenario: first metadata declaration. -/
def mdFirst : RawResource :=
  ⟨"coder_metadata.md1", "coder_metadata", "md1", ResourceMode.managed, []⟩

/-- Duplicate-metadata scenario: second metadata declaration targeting the
same resource. -/
def mdSecond : RawResource :=
  ⟨"coder_metadata.md2", "coder_metadata", "md2", ResourceMode.managed, []⟩

/-- Duplicate-metadata scenario: module input. -/
def mdModules : List TfModule := [⟨[mdAbout, mdFirst, mdSecond]⟩]

/-- Duplicate-metadata scenario: both metadata blocks point at about. -/
def mdEdges : List Edge :=
  [("coder_metadata.md1", "null_resource.about"), ("coder_metadata.md2", "null_resource.about")]

/-- Instance-association scenarios: a provider resource of the given type
carrying one attribute. -/
def provRes (ptype key val : String) : RawResource :=
  ⟨ptype ++ ".dev", ptype, "dev", ResourceMode.managed, [(key, AttrValue.str val)]⟩

/-- Instance-type scenario: module input, one provider resource whose
instance-type attribute is set. -/
def itModules (ptype key : String) : List TfModule :=
  [⟨[provRes ptype key "test-instance-type"]⟩]

/-- Instance-type scenario: expected output: the attribute value lands on
the resource's instance type. -/
def itExpected (ptype : String) : State :=
  ⟨[⟨"dev", ptype, some "test-instance-type", []⟩], [], []⟩

/-- Instance-id scenario: the agent declaring a provider identity auth
mode. -/
def iiAgent (auth : String) : RawResource :=
  ⟨"coder_agent.dev", "coder_agent", "dev", ResourceMode.managed,
    [("arch", AttrValue.str "amd64"), ("auth", AttrValue.str auth)]⟩

/-- Instance-id scenario: module input, an agent plus a provider resource
carrying the instance-id attribute. -/
def iiModules (auth ptype idKey : String) : List TfModule :=
  [⟨[iiAgent auth, provRes ptype idKey "test-instance-id"]⟩]

/-- Instance-id scenario: the provider resource depends on the agent. -/
def iiEdges (ptype : String) : List Edge := [(ptype ++ ".dev", "coder_agent.dev")]

/-- Instance-id scenario: expected output agent: the provider's instance-id
attribute lands in the agent's instance-id auth. -/
def iiAgentOut (auth : String) : AgentOut :=
  ⟨"dev", "", "amd64", auth, AgentAuth.instanceId "test-instance-id", 120,
    defaultDisplayApps, []⟩

/-- Instance-id scenario: expected output state. -/
def iiExpected (auth ptype : String) : State :=
  ⟨[⟨"dev", ptype, none, [iiAgentOut auth]⟩], [], []⟩

/-! ## Theorems: conversion pipeline -/

theorem convertState_ok_inv {modules : List TfModule} {edges : List Edge} {s : State}
    (h : ConvertState modules edges = Except.ok s) :
    s = buildState (flattenCatalog modules) edges := by
  unfold ConvertState at h
  split at h
  · exact Except.noConfusion h
  · injection h with h
    exact h.symm

theorem buildState_resources_sorted (cat : List RawResource) (edges : List Edge) :
    List.Sorted resLe (buildState cat edges).resources :=
  List.sorted_insertionSort resLe _

theorem buildState_mem_resources {cat : List RawResource} {edges : List Edge}
    {r : ResourceOut} (hr : r ∈ (buildState cat edges).resources) :
    ∃ raw ∈ cat.filter isInfraRes, r = buildResource cat edges raw := by
  have h2 := (List.perm_insertionSort resLe _).mem_iff.mp hr
  obtain ⟨raw, hraw, heq⟩ := List.mem_map.mp h2
  exact ⟨raw, hraw, heq.symm⟩

theorem buildResource_agents_sorted (cat : List RawResource) (edges : List Edge)
    (raw : RawResource) : List.Sorted agentLe (buildResource cat edges raw).agents :=
  List.sorted_insertionSort agentLe _

theorem buildResource_mem_agents {cat : List RawResource} {edges : List Edge}
    {raw : RawResource} {a : AgentOut} (ha : a ∈ (buildResource cat edges raw).agents) :
    ∃ e, e ∈ decodedAgents cat ∧ a = buildAgentOut cat edges (decodedApps cat) raw e := by
  have h2 := (List.perm_insertionSort agentLe _).mem_iff.mp ha
  obtain ⟨e, he, heq⟩ := List.mem_map.mp h2
  exact ⟨e, (List.mem_filter.mp he).1, heq.symm⟩

theorem buildAgentOut_apps_sorted (cat : List RawResource) (edges : List Edge)
    (apps : List AppEnt) (owner : RawResource) (e : AgentEnt) :
    List.Sorted appLe (buildAgentOut cat edges apps owner e).apps :=
  List.sorted_insertionSort appLe _

theorem buildState_extAuth_sorted (cat : List RawResource) (edges : List Edge) :
    List.Sorted strLe (buildState cat edges).externalAuthProviders ∧
      (buildState cat edges).externalAuthProviders.Nodup :=
  ⟨List.Pairwise.sublist (List.dedup_sublist _) (List.sorted_insertionSort strLe _),
   List.nodup_dedup _⟩

/-- C1: ConvertState attaches every agent decoded from a coder_agent
resource to the managed non-coder resource found first by undirected BFS
over the dependency graph: in the chain agent to b to a the agent lands on
the closer resource b and a keeps no agents; at equal BFS distance the
resource that comes first in the flattened resource order wins, both when
it is also lexicographically smaller (first versus second) and when it is
lexicographically larger (zz listed before aa). -/
theorem convertState_bfs_attachment :
    ConvertState chainModules chainEdges = Except.ok chainExpected ∧
    ConvertState confModules confEdges = Except.ok confExpected ∧
    ConvertState tieModules tieEdges = Except.ok tieExpected := by
  refine ⟨by decide, by decide, by decide⟩

/-- C2: ConvertState preserves presence and absence of numeric validation
bounds exactly, for the shapes neither, min only, max only, min zero,
max zero, both set, and min zero with max set: a bound present with value 0
decodes to some 0 and an omitted bound decodes to none. -/
theorem convertState_validation_bounds :
    ConvertState paramsModules [] = Except.ok paramsExpected ∧
    paramsExpected.parameters.map (fun p => (p.validationMin, p.validationMax)) =
      [(none, none), (some 3, none), (none, some 6), (some 0, none), (none, some 0),
       (some 3, some 6), (some 0, some 6)] := by
  refine ⟨by decide, by decide⟩

/-- C3: the state returned by a successful ConvertState is already
deterministically ordered when it is returned: resources ascend by name
then type, agents within each resource ascend by name, apps within each
agent ascend by slug, and the external auth providers are sorted ascending
and deduplicated. -/
theorem convertState_output_sorted (modules : List TfModule) (edges : List Edge)
    (s : State) (h : ConvertState modules edges = Except.ok s) :
    List.Sorted resLe s.resources ∧
    (∀ r ∈ s.resources, List.Sorted agentLe r.agents ∧
      ∀ a ∈ r.agents, List.Sorted appLe a.apps) ∧
    List.Sorted strLe s.externalAuthProviders ∧
    s.externalAuthProviders.Nodup := by
  obtain rfl := convertState_ok_inv h
  refine ⟨buildState_resources_sorted _ _, ?_,
    (buildState_extAuth_sorted _ _).1, (buildState_extAuth_sorted _ _).2⟩
  intro r hr
  obtain ⟨raw, hraw, rfl⟩ := buildState_mem_resources hr
  refine ⟨buildResource_agents_sorted _ _ _, ?_⟩
  intro a ha
  obtain ⟨e, he, rfl⟩ := buildResource_mem_agents ha
  exact buildAgentOut_apps_sorted _ _ _ _ _

/-- Witness for C3 at the chaining scenario. -/
theorem convertState_output_sorted_witness :
    List.Sorted resLe chainExpected.resources ∧
    (∀ r ∈ chainExpected.resources, List.Sorted agentLe r.agents ∧
      ∀ a ∈ r.agents, List.Sorted appLe a.apps) ∧
    List.Sorted strLe chainExpected.externalAuthProviders ∧
    chainExpected.externalAuthProviders.Nodup :=
  convertState_output_sorted chainModules chainEdges chainExpected (by decide)

/-- C4: a coder_app slug failing the slug pattern aborts the conversion
with an error containing invalid app slug, and two coder_apps sharing a
slug abort it with an error containing duplicate app slug; in both cases
no state is produced. -/
theorem convertState_slug_validation :
    (ConvertState invalidSlugModules invalidSlugEdges =
        Except.error "invalid app slug \"$$$ invalid slug $$$\"" ∧
      ∃ tail, "invalid app slug \"$$$ invalid slug $$$\"" = "invalid app slug" ++ tail) ∧
    (ConvertState dupSlugModules dupSlugEdges =
        Except.error "duplicate app slug \"valid\"" ∧
      ∃ tail, "duplicate app slug \"valid\"" = "duplicate app slug" ++ tail) := by
  refine ⟨⟨by decide, " \"$$$ invalid slug $$$\"", by decide⟩,
    ⟨by decide, " \"valid\"", by decide⟩⟩

/-- C5: duplicate coder_parameter names abort the conversion with an error
enumerating exactly the repeated names with Oxford-comma formatting: one
name uses appears, two names are joined by and, three names use a comma
then and. -/
theorem convertState_dup_param_names :
    ConvertState (dupParamModules ["identical", "identical"]) [] =
      Except.error
        "coder_parameter names must be unique but \"identical\" appears multiple times" ∧
    ConvertState (dupParamModules ["identical-0", "identical-1", "identical-0", "identical-1"]) [] =
      Except.error
        "coder_parameter names must be unique but \"identical-0\" and \"identical-1\" appear multiple times" ∧
    ConvertState
        (dupParamModules
          ["identical-0", "identical-1", "identical-2", "identical-0", "identical-1",
            "identical-2"]) [] =
      Except.error
        "coder_parameter names must be unique but \"identical-0\", \"identical-1\" and \"identical-2\" appear multiple times" := by
  refine ⟨by decide, by decide, by decide⟩

/-- C6: two coder_metadata declarations targeting the same resource abort
the conversion with the error duplicate metadata resource followed by the
address of the doubly targeted resource; the error constructor carries no
state. -/
theorem convertState_dup_metadata :
    ConvertState mdModules mdEdges =
      Except.error "duplicate metadata resource: null_resource.about" := by
  decide

/-- C7: for every provider type of the static table, ConvertState copies
the provider's instance-type attribute onto the output resource, and, for
an agent whose auth mode matches the provider family, copies the
provider's instance-id attribute into the agent's instance-id auth. -/
theorem convertState_instance_association :
    (ConvertState (itModules "google_compute_instance" "machine_type") [] =
      Except.ok (itExpected "google_compute_instance")) ∧
    (ConvertState (itModules "aws_instance" "instance_type") [] =
      Except.ok (itExpected "aws_instance")) ∧
    (ConvertState (itModules "aws_spot_instance_request" "instance_type") [] =
      Except.ok (itExpected "aws_spot_instance_request")) ∧
    (ConvertState (itModules "azurerm_linux_virtual_machine" "size") [] =
      Except.ok (itExpected "azurerm_linux_virtual_machine")) ∧
    (ConvertState (itModules "azurerm_windows_virtual_machine" "size") [] =
      Except.ok (itExpected "azurerm_windows_virtual_machine")) ∧
    (ConvertState (iiModules "google-instance-identity" "google_compute_instance" "instance_id")
        (iiEdges "google_compute_instance") =
      Except.ok (iiExpected "google-instance-identity" "google_compute_instance")) ∧
    (ConvertState (iiModules "aws-instance-identity" "aws_instance" "id")
        (iiEdges "aws_instance") =
      Except.ok (iiExpected "aws-instance-identity" "aws_instance")) ∧
    (ConvertState (iiModules "aws-instance-identity" "aws_spot_instance_request" "spot_instance_id")
        (iiEdges "aws_spot_instance_request") =
      Except.ok (iiExpected "aws-instance-identity" "aws_spot_instance_request")) ∧
    (ConvertState
        (iiModules "azure-instance-identity" "azurerm_linux_virtual_machine" "virtual_machine_id")
        (iiEdges "azurerm_linux_virtual_machine") =
      Except.ok (iiExpected "azure-instance-identity" "azurerm_linux_virtual_machine")) ∧
    (ConvertState
        (iiModules "azure-instance-identity" "azurerm_windows_virtual_machine"
          "virtual_machine_id")
        (iiEdges "azurerm_windows_virtual_machine") =
      Except.ok (iiExpected "azure-instance-identity" "azurerm_windows_virtual_machine")) := by
  refine ⟨by decide, by decide, by decide, by decide, by decide, by decide, by decide, by decide,
    by decide, by decide⟩

/-- C8: every agent of a successfully converted state stems from a
coder_agent resource of the flattened catalog, keeps that resource's
decoded display apps, and when the source attributes carry no display_apps
block the agent's display apps are the default: all capabilities on except
vscode insiders. -/
theorem convertState_default_display_apps (modules : List TfModule) (edges : List Edge)
    (s : State) (h : ConvertState modules edges = Except.ok s)
    (r : ResourceOut) (hr : r ∈ s.resources) (a : AgentOut) (ha : a ∈ r.agents) :
    ∃ raw, raw ∈ flattenCatalog modules ∧ raw.type = "coder_agent" ∧
      a.displayApps = (decodeAgent raw).displayApps ∧
      (lookupAttr raw.attributes "display_apps" = none →
        a.displayApps = defaultDisplayApps) := by
  obtain rfl := convertState_ok_inv h
  obtain ⟨rawR, hrawR, rfl⟩ := buildState_mem_resources hr
  obtain ⟨e, he, rfl⟩ := buildResource_mem_agents ha
  obtain ⟨raw, hraw, hdec⟩ := List.mem_filterMap.mp he
  by_cases ht : raw.type = "coder_agent"
  · rw [if_pos ht] at hdec
    injection hdec with hdec
    refine ⟨raw, hraw, ht, ?_, ?_⟩
    · show e.displayApps = (decodeAgent raw).displayApps
      rw [hdec]
    · intro hnone
      show e.displayApps = defaultDisplayApps
      rw [← hdec]
      show decodeDisplayApps (lookupAttr raw.attributes "display_apps") = defaultDisplayApps
      rw [hnone]
      rfl
  · rw [if_neg ht] at hdec
    exact Option.noConfusion hdec

/-- Witness for C8 at the chaining scenario, whose agent declares no
display_apps block. -/
theorem convertState_default_display_apps_witness :
    ∃ raw, raw ∈ flattenCatalog chainModules ∧ raw.type = "coder_agent" ∧
      chainAgentOut.displayApps = (decodeAgent raw).displayApps ∧
      (lookupAttr raw.attributes "display_apps" = none →
        chainAgentOut.displayApps = defaultDisplayApps) :=
  convertState_default_display_apps chainModules chainEdges chainExpected (by decide)
    ⟨"b", "null_resource", none, [chainAgentOut]⟩ (by decide) chainAgentOut (by decide)

/-! ## Theorems: startup logs writer -/

theorem findNl_eq_none {p : List Char} (h : '\n' ∉ p) : findNl p = none := by
  induction p with
  | nil => rfl
  | cons c tail ih =>
    have hc : ¬ c = '\n' := fun hc => h (by rw [hc]; exact List.mem_cons_self _ _)
    have htail : '\n' ∉ tail := fun hm => h (List.mem_cons_of_mem c hm)
    simp only [findNl]
    rw [if_neg hc, ih htail]
    rfl

theorem findNl_append_nl (s rest : List Char) (h : '\n' ∉ s) :
    findNl (s ++ '\n' :: rest) = some s.length := by
  induction s with
  | nil => simp [findNl]
  | cons c tail ih =>
    have hc : ¬ c = '\n' := fun hc => h (by rw [hc]; exact List.mem_cons_self _ _)
    have htail : '\n' ∉ tail := fun hm => h (List.mem_cons_of_mem c hm)
    show findNl (c :: (tail ++ '\n' :: rest)) = some (tail.length + 1)
    simp only [findNl]
    rw [if_neg hc, ih htail]
    rfl

theorem drop_len_succ (s : List Char) (c : Char) (t : List Char) :
    (s ++ c :: t).drop (s.length + 1) = t := by
  induction s with
  | nil => rfl
  | cons a tail ih =>
    simp only [List.cons_append, List.length_cons]
    exact ih

theorem write_no_newline (w : StartupLogsWriter) (p : List Char) (h : '\n' ∉ p) :
    w.Write p = ([], ⟨w.buf ++ p⟩) := by
  rw [StartupLogsWriter.Write.eq_def]
  split
  · rfl
  · rename_i nl hfind
    rw [findNl_eq_none h] at hfind
    exact Option.noConfusion hfind

theorem write_line (w : StartupLogsWriter) (s rest : List Char) (h : '\n' ∉ s) :
    w.Write (s ++ '\n' :: rest) =
      ((w.buf ++ stripCr s) :: (StartupLogsWriter.Write ⟨[]⟩ rest).1,
        (StartupLogsWriter.Write ⟨[]⟩ rest).2) := by
  rw [StartupLogsWriter.Write.eq_def]
  split
  · rename_i hfind
    rw [findNl_append_nl s rest h] at hfind
    exact Option.noConfusion hfind
  · rename_i nl hfind
    rw [findNl_append_nl s rest h] at hfind
    injection hfind with hnl
    subst hnl
    rw [drop_len_succ s '\n' rest]
    by_cases hcr : 0 < s.length ∧ (s ++ '\n' :: rest)[s.length - 1]? = some '\r'
    · rw [if_pos hcr]
      obtain ⟨hpos, hlast⟩ := hcr
      have h1 : (s ++ '\n' :: rest)[s.length - 1]? = s[s.length - 1]? :=
        List.getElem?_append_left (by omega)
      have h2 : s.getLast? = some '\r' := by
        rw [List.getLast?_eq_getElem?, ← h1]
        exact hlast
      have h3 : (s ++ '\n' :: rest).take (s.length - 1) = s.take (s.length - 1) := by
        rw [List.take_append_eq_append_take]
        have he : s.length - 1 - s.length = 0 := by omega
        rw [he]
        simp
      have h4 : stripCr s = s.dropLast := by
        unfold stripCr
        rw [h2]
        simp
      rw [h3, h4, List.dropLast_eq_take]
    · rw [if_neg hcr]
      rcases Decidable.em (s = []) with rfl | hne
      · rfl
      · have hpos : 0 < s.length := List.length_pos.mpr hne
        have hlast : ¬ (s ++ '\n' :: rest)[s.length - 1]? = some '\r' :=
          fun hc => hcr ⟨hpos, hc⟩
        have h1 : (s ++ '\n' :: rest)[s.length - 1]? = s[s.length - 1]? :=
          List.getElem?_append_left (by omega)
        have h2 : ¬ s.getLast? = some '\r' := by
          rw [List.getLast?_eq_getElem?, ← h1]
          exact hlast
        have h3 : stripCr s = s := by
          unfold stripCr
          cases hg : s.getLast? with
          | none => rfl
          | some c =>
            have hcne : ¬ c = '\r' := fun hc => h2 (hc ▸ hg)
            simp [hcne]
        have h4 : (s ++ '\n' :: rest).take (s.length - 0) = s := by
          rw [Nat.sub_zero]
          exact List.take_left s ('\n' :: rest)
        rw [h3, h4]

theorem exists_first_nl {p : List Char} (h : '\n' ∈ p) :
    ∃ s rest, p = s ++ '\n' :: rest ∧ '\n' ∉ s := by
  induction p with
  | nil => cases h
  | cons c tail ih =>
    by_cases hc : c = '\n'
    · exact ⟨[], tail, by rw [hc]; rfl, by simp⟩
    · have hmem : '\n' ∈ tail := by
        rcases List.mem_cons.mp h with h1 | h2
        · exact absurd h1.symm hc
        · exact h2
      obtain ⟨s, rest, heq, hns⟩ := ih hmem
      refine ⟨c :: s, rest, by rw [heq]; rfl, ?_⟩
      intro hmm
      rcases List.mem_cons.mp hmm with h1 | h2
      · exact hc h1.symm
      · exact hns h2

theorem write_count (w : StartupLogsWriter) (p : List Char) :
    ((w.Write p).1).length = p.count '\n' := by
  suffices H : ∀ (n : Nat) (w : StartupLogsWriter) (p : List Char), p.length = n →
      ((w.Write p).1).length = p.count '\n' from H p.length w p rfl
  intro n
  induction n using Nat.strong_induction_on with
  | _ n ih =>
    intro w p hlen
    by_cases hmem : '\n' ∈ p
    · obtain ⟨s, rest, rfl, hs⟩ := exists_first_nl hmem
      have h0 : s.count '\n' = 0 := List.count_eq_zero.mpr hs
      have hlt : rest.length < n := by
        subst hlen
        simp only [List.length_append, List.length_cons]
        omega
      have hr := ih rest.length hlt ⟨[]⟩ rest rfl
      have hc : (s ++ '\n' :: rest).count '\n' = rest.count '\n' + 1 := by
        simp [List.count_append, List.count_cons, h0]
      rw [write_line w s rest hs, hc]
      simp [hr]
    · rw [write_no_newline w p hmem]
      simp [List.count_eq_zero.mpr hmem]

theorem close_flushes (w : StartupLogsWriter) (h : w.buf ≠ []) :
    w.Close = ([w.buf], ⟨[]⟩) := by
  unfold StartupLogsWriter.Close
  rw [if_neg (by simpa [List.isEmpty_iff] using h)]

theorem writer_test_row :
    (runWrites ["hello world\r\n".data, "\r\r\n".data, "goodbye world\n".data]).1 =
      ["hello world".data, "\r".data, "goodbye world".data] := by
  have e0 : StartupLogsWriter.Write ⟨[]⟩ [] = ([], ⟨[]⟩) :=
    write_no_newline _ _ (by decide)
  have h1 : StartupLogsWriter.Write ⟨[]⟩ ("hello world\r\n".data) =
      (["hello world".data], ⟨[]⟩) := by
    have h := write_line ⟨[]⟩ ("hello world\r".data) [] (by decide)
    rw [e0] at h
    exact h
  have h2 : StartupLogsWriter.Write ⟨[]⟩ ("\r\r\n".data) = ([['\r']], ⟨[]⟩) := by
    have h := write_line ⟨[]⟩ ['\r', '\r'] [] (by decide)
    rw [e0] at h
    exact h
  have h3 : StartupLogsWriter.Write ⟨[]⟩ ("goodbye world\n".data) =
      (["goodbye world".data], ⟨[]⟩) := by
    have h := write_line ⟨[]⟩ ("goodbye world".data) [] (by decide)
    rw [e0] at h
    exact h
  simp [runWrites, runWritesFrom, LogsWriter, h1, h2, h3]

/-- C9 counterexample: writing a carriage return at the end of one Write
call and the newline at the start of the next emits the carriage return
unstripped, while the claim's stream-level reading predicts it stripped. -/
theorem writer_cr_boundary_counterexample :
    (runWrites [['a', '\r'], ['\n', 'b']]).1 = [['a', '\r']] ∧
    claimWriterLogs [['a', '\r'], ['\n', 'b']] = [['a']] ∧
    (runWrites [['a', '\r'], ['\n', 'b']]).1 ≠ claimWriterLogs [['a', '\r'], ['\n', 'b']] := by
  have h1 : StartupLogsWriter.Write ⟨[]⟩ ['a', '\r'] = ([], ⟨['a', '\r']⟩) :=
    write_no_newline _ _ (by decide)
  have h2 : StartupLogsWriter.Write ⟨[]⟩ ['b'] = ([], ⟨['b']⟩) :=
    write_no_newline _ _ (by decide)
  have h3 : StartupLogsWriter.Write ⟨['a', '\r']⟩ ['\n', 'b'] = ([['a', '\r']], ⟨['b']⟩) := by
    have h := write_line ⟨['a', '\r']⟩ [] ['b'] (by decide)
    rw [h2] at h
    exact h
  have hrun : (runWrites [['a', '\r'], ['\n', 'b']]).1 = [['a', '\r']] := by
    simp [runWrites, runWritesFrom, LogsWriter, h1, h3]
  refine ⟨hrun, by decide, ?_⟩
  rw [hrun]
  decide

/-- C9 (amended): during a single Write call, exactly one Log is sent per
newline byte of that call's input: its output is the buffered partial plus
the bytes of the line, where a carriage return immediately preceding the
newline is stripped only when both bytes arrive in the same Write call
(stripCr acts on the current chunk's segment only, so a buffered carriage
return survives); input without a newline is appended to the buffer, and
Close sends a nonempty buffer as one final Log. The emitted Log count of a
Write always equals the newline count of its input, and the writer
reproduces the multi-chunk carriage return fixture of the test suite. -/
theorem writer_line_splitting :
    (∀ (w : StartupLogsWriter) (p : List Char), '\n' ∉ p → w.Write p = ([], ⟨w.buf ++ p⟩)) ∧
    (∀ (w : StartupLogsWriter) (s rest : List Char), '\n' ∉ s →
      w.Write (s ++ '\n' :: rest) =
        ((w.buf ++ stripCr s) :: (StartupLogsWriter.Write ⟨[]⟩ rest).1,
          (StartupLogsWriter.Write ⟨[]⟩ rest).2)) ∧
    (∀ (w : StartupLogsWriter) (p : List Char), ((w.Write p).1).length = p.count '\n') ∧
    (∀ w : StartupLogsWriter, w.buf ≠ [] → w.Close = ([w.buf], ⟨[]⟩)) ∧
    (runWrites ["hello world\r\n".data, "\r\r\n".data, "goodbye world\n".data]).1 =
      ["hello world".data, "\r".data, "goodbye world".data] :=
  ⟨write_no_newline, write_line, write_count, close_flushes, writer_test_row⟩

/-- Witness for the amended C9 claim at concrete inputs. -/
theorem writer_line_splitting_witness :
    StartupLogsWriter.Write ⟨['x']⟩ ['a', 'b'] = ([], ⟨['x', 'a', 'b']⟩) ∧
    StartupLogsWriter.Write ⟨['x']⟩ ['h', 'i', '\r', '\n'] =
      ((['x', 'h', 'i'] : List Char) :: (StartupLogsWriter.Write ⟨[]⟩ []).1,
        (StartupLogsWriter.Write ⟨[]⟩ []).2) ∧
    ((StartupLogsWriter.Write ⟨[]⟩ ['q', '\n', '\n']).1).length = 2 ∧
    StartupLogsWriter.Close ⟨['z']⟩ = ([['z']], ⟨[]⟩) := by
  refine ⟨writer_line_splitting.1 ⟨['x']⟩ ['a', 'b'] (by decide), ?_, ?_,
    writer_line_splitting.2.2.2.1 ⟨['z']⟩ (by decide)⟩
  · exact writer_line_splitting.2.1 ⟨['x']⟩ ['h', 'i', '\r'] [] (by decide)
  · exact writer_line_splitting.2.2.1 ⟨[]⟩ ['q', '\n', '\n']

/-- C10: a Close always leaves the buffer empty, so a second Close (or a
Close on an empty buffer) sends no Log and succeeds doing nothing. -/
theorem close_idempotent (w : StartupLogsWriter) :
    (w.Close).2 = ⟨[]⟩ ∧ ((w.Close).2).Close = ([], ⟨[]⟩) := by
  have h : (w.Close).2 = (⟨[]⟩ : StartupLogsWriter) := by
    unfold StartupLogsWriter.Close
    split <;> rfl
  refine ⟨h, ?_⟩
  rw [h]
  rfl

end Coder
